import Mathlib

/-!
Verification of the snapshot reconciliation logic of the MCA insights engine
(`process_data.py`, Task B `find_changes` and the Task E summary counts),
shallowly embedded in Lean.

A CSV cell value is a string, a number, or NaN (missing).  A snapshot file is
a list of rows (the `CIN` cell plus the remaining cells as an association
list) together with the list of column names present in the file.  The pandas
operations used by `find_changes` are modelled faithfully:

* `set_index('CIN')` raises `KeyError` when the `CIN` column is absent
  (modelled by the `hasCIN` flag); `find_changes` catches this, and a missing
  file, and returns the empty list.
* `Index.difference` returns the unique keys of the left index that are not
  in the right one, sorted ascending.
* `Index.intersection` (default `sort=False`) returns the unique keys of the
  left (old) index that also occur in the right one, in order of first
  appearance in the left index.
* `df.loc[key, col]` raises `KeyError` when `col` is not a column; otherwise
  it yields the single matching cell, or a Series of cells when the key is
  duplicated in the index.
* the comparison `old != new` on two scalars is Python inequality (NaN is
  unequal to everything, including NaN; values of different types are
  unequal); on a Series the truth test raises `ValueError`.  Exceptions
  raised in the diff loops are not caught by `find_changes`.
-/

namespace MCA

/-- A CSV cell value: string, number, or NaN/missing. -/
inductive Val where
  | str (s : String)
  | num (n : Int)
  | na
deriving DecidableEq, Repr

/-- One CSV row after `set_index('CIN')`: the index value plus the remaining
cells keyed by column name. -/
structure Row where
  cin : String
  cells : List (String × Val)
deriving DecidableEq, Repr

/-- A snapshot CSV as read by pandas: whether a `CIN` column was present,
the other column names of the file, and the rows. -/
structure Csv where
  hasCIN : Bool
  cols : List String
  rows : List Row
deriving DecidableEq, Repr

/-- Outcome of `pd.read_csv` on a snapshot path. -/
inductive ReadResult where
  | fileNotFound
  | ok (c : Csv)
deriving DecidableEq, Repr

/-- Python exceptions that can escape the diff loops. -/
inductive PyErr where
  | keyError (k : String)
  | valueError
deriving DecidableEq, Repr

/-- Result of `df.loc[key, col]`: a scalar, or a Series when the index key is
duplicated. -/
inductive LocVal where
  | scalar (v : Val)
  | series (vs : List Val)
deriving DecidableEq, Repr

/-- One entry of the change log, with the exact dict keys used by the code. -/
structure ChangeRecord where
  CIN : String
  Change_Type : String
  Field_Changed : String
  Old_Value : LocVal
  New_Value : LocVal
  Date : String
deriving DecidableEq, Repr

/-- The index of a snapshot: the `CIN` column in row order. -/
def keysOf (c : Csv) : List String := c.rows.map Row.cin

/-- Unique values of a list in order of first appearance
(pandas `Index.unique`). -/
def firstUniqueAux (seen : List String) : List String → List String
  | [] => []
  | k :: ks =>
      if k ∈ seen then firstUniqueAux seen ks
      else k :: firstUniqueAux (k :: seen) ks

/-- Unique values in order of first appearance. -/
def firstUnique (l : List String) : List String := firstUniqueAux [] l

/-- Ascending lexical sort (pandas sorts `Index.difference` results). -/
def sortAsc (l : List String) : List String := l.insertionSort (· ≤ ·)

/-- `df_new.index.difference(df_old.index)`: unique new keys not in old,
sorted ascending. -/
def new_cins (co cn : Csv) : List String :=
  sortAsc ((firstUnique (keysOf cn)).filter (fun k => decide (k ∉ keysOf co)))

/-- `df_old.index.difference(df_new.index)`: unique old keys not in new,
sorted ascending. -/
def gone_cins (co cn : Csv) : List String :=
  sortAsc ((firstUnique (keysOf co)).filter (fun k => decide (k ∉ keysOf cn)))

/-- `df_old.index.intersection(df_new.index)` with the default `sort=False`:
unique old keys also present in new, in order of first appearance in old. -/
def common_cins (co cn : Csv) : List String :=
  (firstUnique (keysOf co)).filter (fun k => decide (k ∈ keysOf cn))

/-- Read a cell of a row; a cell missing from the row is NaN. -/
def getCell (r : Row) (col : String) : Val :=
  match r.cells.find? (fun c => decide (c.1 = col)) with
  | some c => c.2
  | none => Val.na

/-- `df.loc[key, col]`: `KeyError` if the column is absent, otherwise the
matching cell (a Series when the key is duplicated in the index). -/
def loc (c : Csv) (k col : String) : Except PyErr LocVal :=
  if col ∈ c.cols then
    match c.rows.filter (fun r => decide (r.cin = k)) with
    | [] => .error (.keyError k)
    | [r] => .ok (.scalar (getCell r col))
    | rs => .ok (.series (rs.map (fun r => getCell r col)))
  else .error (.keyError col)

/-- Python `!=` on two pandas scalars: NaN compares unequal to everything
(itself included); values of different kinds are unequal. -/
def pyNe : Val → Val → Bool
  | .str a, .str b => decide (a ≠ b)
  | .num a, .num b => decide (a ≠ b)
  | _, _ => true

/-- `pd.isna` on a scalar. -/
def isna : Val → Bool
  | .na => true
  | _ => false

/-- The guard `old_val != new_val and not (pd.isna(old_val) and
pd.isna(new_val))`; the truth test on a Series raises `ValueError`. -/
def emitTest : LocVal → LocVal → Except PyErr Bool
  | .scalar a, .scalar b => .ok (pyNe a b && !(isna a && isna b))
  | _, _ => .error .valueError

/-- The watched fields, in the configured order. -/
def columns_to_check : List String :=
  ["CompanyStatus", "AuthorizedCapital", "PaidupCapital"]

/-- Build a Field Update record exactly as the appended dict does. -/
def mkFieldRec (cin col : String) (ov nv : LocVal) (d : String) : ChangeRecord :=
  { CIN := cin, Change_Type := "Field Update", Field_Changed := col,
    Old_Value := ov, New_Value := nv, Date := d }

/-- The inner `for col in columns_to_check` loop for one common key. -/
def fieldRecsAux (co cn : Csv) (d cin : String) :
    List String → Except PyErr (List ChangeRecord)
  | [] => .ok []
  | col :: cols =>
      match loc co cin col with
      | .error e => .error e
      | .ok ov =>
        match loc cn cin col with
        | .error e => .error e
        | .ok nv =>
          match emitTest ov nv with
          | .error e => .error e
          | .ok t =>
            match fieldRecsAux co cn d cin cols with
            | .error e => .error e
            | .ok rest =>
                .ok ((if t then [mkFieldRec cin col ov nv d] else []) ++ rest)

/-- The `for cin in new_cins` loop (New Incorporation records). -/
def newRecs (cn : Csv) (d : String) :
    List String → Except PyErr (List ChangeRecord)
  | [] => .ok []
  | cin :: rest =>
      match loc cn cin "CompanyName" with
      | .error e => .error e
      | .ok nv =>
        match newRecs cn d rest with
        | .error e => .error e
        | .ok rs =>
            .ok ({ CIN := cin, Change_Type := "New Incorporation",
                   Field_Changed := "N/A",
                   Old_Value := .scalar (.str "N/A"), New_Value := nv,
                   Date := d } :: rs)

/-- The `for cin in gone_cins` loop (Deregistered records). -/
def goneRecs (co : Csv) (d : String) :
    List String → Except PyErr (List ChangeRecord)
  | [] => .ok []
  | cin :: rest =>
      match loc co cin "CompanyName" with
      | .error e => .error e
      | .ok ov =>
        match goneRecs co d rest with
        | .error e => .error e
        | .ok rs =>
            .ok ({ CIN := cin, Change_Type := "Deregistered",
                   Field_Changed := "N/A",
                   Old_Value := ov, New_Value := .scalar (.str "N/A"),
                   Date := d } :: rs)

/-- The `for cin in common_cins` loop (Field Update records). -/
def commonRecs (co cn : Csv) (d : String) :
    List String → Except PyErr (List ChangeRecord)
  | [] => .ok []
  | cin :: rest =>
      match fieldRecsAux co cn d cin columns_to_check with
      | .error e => .error e
      | .ok here =>
        match commonRecs co cn d rest with
        | .error e => .error e
        | .ok rs => .ok (here ++ rs)

/-- `find_changes(old_file_path, new_file_path, log_date)`: a missing file or
a missing `CIN` column is caught and yields `[]`; otherwise the three loops
run in order, and any exception they raise escapes to the caller. -/
def find_changes (o n : ReadResult) (log_date : String) :
    Except PyErr (List ChangeRecord) :=
  match o, n with
  | .fileNotFound, _ => .ok []
  | _, .fileNotFound => .ok []
  | .ok co, .ok cn =>
      if co.hasCIN && cn.hasCIN then
        match newRecs cn log_date (new_cins co cn) with
        | .error e => .error e
        | .ok r1 =>
          match goneRecs co log_date (gone_cins co cn) with
          | .error e => .error e
          | .ok r2 =>
            match commonRecs co cn log_date (common_cins co cn) with
            | .error e => .error e
            | .ok r3 => .ok (r1 ++ r2 ++ r3)
      else .ok []

/-- Serialization of one record (`to_json(orient='records')`): the key/value
pairs in the order of the dict literals in the code. -/
def serializeRecord (r : ChangeRecord) : List (String × LocVal) :=
  [("CIN", .scalar (.str r.CIN)),
   ("Change_Type", .scalar (.str r.Change_Type)),
   ("Field_Changed", .scalar (.str r.Field_Changed)),
   ("Old_Value", r.Old_Value),
   ("New_Value", r.New_Value),
   ("Date", .scalar (.str r.Date))]

/-- The Task E summary count for one change type:
`len(log_df[log_df['Change_Type'] == t])`. -/
def countType (log : List ChangeRecord) (t : String) : Nat :=
  (log.filter (fun r => decide (r.Change_Type = t))).length

/-- The cell of a snapshot at a given key and column (first matching row);
used to state properties of snapshots with unique keys. -/
def cellOf (c : Csv) (k col : String) : Val :=
  match c.rows.find? (fun r => decide (r.cin = k)) with
  | some r => getCell r col
  | none => Val.na

/-- The spec's null-aware difference: exactly one side null, or both present
and unequal. -/
def specChanged (a b : Val) : Prop :=
  (a = Val.na ∧ b ≠ Val.na) ∨ (a ≠ Val.na ∧ b = Val.na) ∨
    (a ≠ Val.na ∧ b ≠ Val.na ∧ a ≠ b)

instance (a b : Val) : Decidable (specChanged a b) := by
  unfold specChanged; infer_instance

deriving instance DecidableEq for Except

/-- The New Incorporation record the loop appends for key `k` when the new
snapshot has unique keys. -/
def newRecOf (cn : Csv) (d k : String) : ChangeRecord :=
  { CIN := k, Change_Type := "New Incorporation", Field_Changed := "N/A",
    Old_Value := .scalar (.str "N/A"),
    New_Value := .scalar (cellOf cn k "CompanyName"), Date := d }

/-- The Deregistered record the loop appends for key `k` when the old
snapshot has unique keys. -/
def goneRecOf (co : Csv) (d k : String) : ChangeRecord :=
  { CIN := k, Change_Type := "Deregistered", Field_Changed := "N/A",
    Old_Value := .scalar (cellOf co k "CompanyName"),
    New_Value := .scalar (.str "N/A"), Date := d }

/-- The Field Update records one common key contributes when both snapshots
have unique keys: one record per watched field, in watch-list order, exactly
for the fields changed under the null-aware comparison. -/
def chunkFor (co cn : Csv) (d k : String) : List ChangeRecord :=
  (columns_to_check.filter (fun col =>
      decide (specChanged (cellOf co k col) (cellOf cn k col)))).map
    (fun col => mkFieldRec k col (.scalar (cellOf co k col))
      (.scalar (cellOf cn k col)) d)

/-- Does a record carry a Field Update for key `k` and field `f`? -/
def isFieldRecFor (k f : String) (r : ChangeRecord) : Bool :=
  decide (r.CIN = k ∧ r.Change_Type = "Field Update" ∧ r.Field_Changed = f)

/-! Concrete snapshots used to check the spec's scenarios and to exhibit
counterexamples.  `stdCols` is the schema of a cleaned snapshot. -/

/-- The columns of a full snapshot (besides `CIN`). -/
def stdCols : List String :=
  ["CompanyName", "CompanyStatus", "AuthorizedCapital", "PaidupCapital"]

/-- A row with a name and a status; the capital cells are left missing. -/
def mkRow (cin name status : String) : Row :=
  { cin := cin,
    cells := [("CompanyName", .str name), ("CompanyStatus", .str status)] }

/-- Scenario A, old snapshot: K1 and K2, both Active. -/
def oldSnapA : Csv :=
  { hasCIN := true, cols := stdCols,
    rows := [mkRow "K1" "Alpha" "Active", mkRow "K2" "Beta" "Active"] }

/-- Scenario A, new snapshot: K2 Strike Off, K3 Active. -/
def newSnapA : Csv :=
  { hasCIN := true, cols := stdCols,
    rows := [mkRow "K2" "Beta" "Strike Off", mkRow "K3" "Gamma" "Active"] }

/-- Scenario A's expected change log. -/
def scenarioALog : List ChangeRecord :=
  [{ CIN := "K3", Change_Type := "New Incorporation", Field_Changed := "N/A",
     Old_Value := .scalar (.str "N/A"), New_Value := .scalar (.str "Gamma"),
     Date := "Day 2" },
   { CIN := "K1", Change_Type := "Deregistered", Field_Changed := "N/A",
     Old_Value := .scalar (.str "Alpha"), New_Value := .scalar (.str "N/A"),
     Date := "Day 2" },
   { CIN := "K2", Change_Type := "Field Update",
     Field_Changed := "CompanyStatus",
     Old_Value := .scalar (.str "Active"),
     New_Value := .scalar (.str "Strike Off"), Date := "Day 2" }]

/-- Scenario B: the key K1 appears twice in the old snapshot. -/
def dupOld : Csv :=
  { hasCIN := true, cols := stdCols,
    rows := [mkRow "K1" "Alpha" "Active", mkRow "K1" "Alpha2" "Active"] }

/-- A new snapshot without K1 (the duplicate key is a pure removal). -/
def dupNewAbsent : Csv :=
  { hasCIN := true, cols := stdCols, rows := [mkRow "K2" "Beta" "Active"] }

/-- A new snapshot that shares the duplicated key K1. -/
def dupNewCommon : Csv :=
  { hasCIN := true, cols := stdCols, rows := [mkRow "K1" "Alpha" "Gone"] }

/-- Snapshot columns with the `CompanyName` column missing. -/
def noNameCols : List String :=
  ["CompanyStatus", "AuthorizedCapital", "PaidupCapital"]

/-- A row carrying only a status cell. -/
def mkRowS (cin status : String) : Row :=
  { cin := cin, cells := [("CompanyStatus", .str status)] }

/-- Old snapshot without a `CompanyName` column. -/
def noNameOld : Csv :=
  { hasCIN := true, cols := noNameCols, rows := [mkRowS "K1" "Active"] }

/-- New snapshot without a `CompanyName` column, same key set as
`noNameOld`. -/
def noNameNewSame : Csv :=
  { hasCIN := true, cols := noNameCols, rows := [mkRowS "K1" "Strike Off"] }

/-- New snapshot without a `CompanyName` column and with an added key. -/
def noNameNewAdded : Csv :=
  { hasCIN := true, cols := noNameCols,
    rows := [mkRowS "K1" "Active", mkRowS "K2" "Active"] }

/-- Old snapshot whose index is not ascending (K2 before K1). -/
def nonMonoOld : Csv :=
  { hasCIN := true, cols := stdCols,
    rows := [mkRow "K2" "Beta" "A", mkRow "K1" "Alpha" "A"] }

/-- New snapshot with both statuses changed, for the ordering check. -/
def nonMonoNew : Csv :=
  { hasCIN := true, cols := stdCols,
    rows := [mkRow "K1" "Alpha" "B", mkRow "K2" "Beta" "B"] }

/-- The log `find_changes` returns on `dupOld`/`dupNewAbsent`: the duplicate
key K1 is collapsed into one Deregistered record whose old value is a
two-element Series. -/
def dupLog : List ChangeRecord :=
  [{ CIN := "K2", Change_Type := "New Incorporation", Field_Changed := "N/A",
     Old_Value := .scalar (.str "N/A"), New_Value := .scalar (.str "Beta"),
     Date := "Day 2" },
   { CIN := "K1", Change_Type := "Deregistered", Field_Changed := "N/A",
     Old_Value := .series [.str "Alpha", .str "Alpha2"],
     New_Value := .scalar (.str "N/A"), Date := "Day 2" }]

/-- The log `find_changes` returns on `nonMonoOld`/`nonMonoNew`: field
updates come out in old-snapshot index order K2, K1, not ascending. -/
def nonMonoLog : List ChangeRecord :=
  [{ CIN := "K2", Change_Type := "Field Update",
     Field_Changed := "CompanyStatus", Old_Value := .scalar (.str "A"),
     New_Value := .scalar (.str "B"), Date := "Day 2" },
   { CIN := "K1", Change_Type := "Field Update",
     Field_Changed := "CompanyStatus", Old_Value := .scalar (.str "A"),
     New_Value := .scalar (.str "B"), Date := "Day 2" }]

/-- A snapshot file without a `CIN` column. -/
def noCINSnap : Csv :=
  { hasCIN := false, cols := stdCols, rows := [mkRow "K1" "Alpha" "Active"] }

/-- The serialized field names the code actually emits. -/
def codeKeys : List String :=
  ["CIN", "Change_Type", "Field_Changed", "Old_Value", "New_Value", "Date"]

/-- The serialized field names the spec claims. -/
def claimedKeys : List String :=
  ["Key", "Change_Type", "Field_Changed", "Old_Value", "New_Value", "Date"]

/-! Basic facts about the modelled pandas index operations. -/

theorem mem_firstUniqueAux {l seen : List String} {k : String} :
    k ∈ firstUniqueAux seen l ↔ k ∈ l ∧ k ∉ seen := by
  induction l generalizing seen with
  | nil => simp [firstUniqueAux]
  | cons x xs ih =>
      by_cases hx : x ∈ seen
      · rw [firstUniqueAux, if_pos hx, ih]
        simp only [List.mem_cons]
        constructor
        · rintro ⟨h1, h2⟩; exact ⟨Or.inr h1, h2⟩
        · rintro ⟨h1 | h1, h2⟩
          · exact absurd (h1 ▸ hx) h2
          · exact ⟨h1, h2⟩
      · rw [firstUniqueAux, if_neg hx]
        simp only [List.mem_cons, ih]
        constructor
        · rintro (h | ⟨h1, h2⟩)
          · exact ⟨Or.inl h, h ▸ hx⟩
          · exact ⟨Or.inr h1, fun hk => h2 (Or.inr hk)⟩
        · rintro ⟨h1 | h1, h2⟩
          · exact Or.inl h1
          · by_cases hk : k = x
            · exact Or.inl hk
            · exact Or.inr ⟨h1, by simp [hk, h2]⟩

theorem nodup_firstUniqueAux (seen l : List String) :
    (firstUniqueAux seen l).Nodup := by
  induction l generalizing seen with
  | nil => simp [firstUniqueAux]
  | cons x xs ih =>
      by_cases hx : x ∈ seen
      · rw [firstUniqueAux, if_pos hx]; exact ih seen
      · rw [firstUniqueAux, if_neg hx]
        refine List.nodup_cons.mpr ⟨fun hmem => ?_, ih (x :: seen)⟩
        exact (mem_firstUniqueAux.mp hmem).2 (List.mem_cons_self x seen)

theorem mem_firstUnique {l : List String} {k : String} :
    k ∈ firstUnique l ↔ k ∈ l := by
  rw [firstUnique, mem_firstUniqueAux]; simp

theorem nodup_firstUnique (l : List String) : (firstUnique l).Nodup :=
  nodup_firstUniqueAux [] l

theorem mem_new_cins {co cn : Csv} {k : String} :
    k ∈ new_cins co cn ↔ k ∈ keysOf cn ∧ k ∉ keysOf co := by
  rw [new_cins, sortAsc, List.mem_insertionSort, List.mem_filter,
    mem_firstUnique, decide_eq_true_eq]

theorem mem_gone_cins {co cn : Csv} {k : String} :
    k ∈ gone_cins co cn ↔ k ∈ keysOf co ∧ k ∉ keysOf cn := by
  rw [gone_cins, sortAsc, List.mem_insertionSort, List.mem_filter,
    mem_firstUnique, decide_eq_true_eq]

theorem mem_common_cins {co cn : Csv} {k : String} :
    k ∈ common_cins co cn ↔ k ∈ keysOf co ∧ k ∈ keysOf cn := by
  rw [common_cins, List.mem_filter, mem_firstUnique, decide_eq_true_eq]

theorem nodup_common_cins (co cn : Csv) : (common_cins co cn).Nodup :=
  (nodup_firstUnique (keysOf co)).filter _

theorem sorted_new_cins (co cn : Csv) :
    (new_cins co cn).Sorted (· ≤ ·) :=
  List.sorted_insertionSort _ _

theorem sorted_gone_cins (co cn : Csv) :
    (gone_cins co cn).Sorted (· ≤ ·) :=
  List.sorted_insertionSort _ _

/-! `df.loc` on a snapshot with unique keys yields the scalar cell. -/

theorem filter_cin_unique {rows : List Row} {k : String}
    (hnd : (rows.map Row.cin).Nodup) (hk : k ∈ rows.map Row.cin) :
    ∃ r, rows.filter (fun r => decide (r.cin = k)) = [r] ∧
      rows.find? (fun r => decide (r.cin = k)) = some r := by
  induction rows with
  | nil => simp at hk
  | cons x xs ih =>
      rw [List.map_cons, List.nodup_cons] at hnd
      by_cases hx : x.cin = k
      · refine ⟨x, ?_, ?_⟩
        · rw [List.filter_cons_of_pos (by simp [hx]),
            List.filter_eq_nil_iff.mpr (fun r hr => ?_)]
          simp only [decide_eq_true_eq]
          intro hrk
          exact hnd.1 (hx ▸ hrk ▸ List.mem_map_of_mem Row.cin hr)
        · rw [List.find?_cons_of_pos _ (by simp [hx])]
      · have hk' : k ∈ xs.map Row.cin := by
          rcases List.mem_cons.mp hk with h | h
          · exact absurd h.symm hx
          · exact h
        obtain ⟨r, hr1, hr2⟩ := ih hnd.2 hk'
        refine ⟨r, ?_, ?_⟩
        · rw [List.filter_cons_of_neg (by simp [hx]), hr1]
        · rw [List.find?_cons_of_neg _ (by simp [hx]), hr2]

theorem loc_scalar {c : Csv} {k col : String} (hnd : (keysOf c).Nodup)
    (hk : k ∈ keysOf c) (hcol : col ∈ c.cols) :
    loc c k col = .ok (.scalar (cellOf c k col)) := by
  obtain ⟨r, hr1, hr2⟩ := filter_cin_unique hnd hk
  rw [loc, if_pos hcol, hr1, cellOf, hr2]

/-! The code's comparison agrees with the spec's null-aware difference. -/

theorem emitB_eq_specChanged (a b : Val) :
    (pyNe a b && !(isna a && isna b)) = decide (specChanged a b) := by
  cases a <;> cases b <;>
    simp [pyNe, isna, specChanged, decide_eq_decide]

theorem emitTest_scalar (a b : Val) :
    emitTest (.scalar a) (.scalar b) = .ok (decide (specChanged a b)) := by
  rw [emitTest, emitB_eq_specChanged]

theorem specChanged_irrefl (a : Val) : ¬ specChanged a a := by
  cases a <;> simp [specChanged]

/-! What each loop returns on unique-keyed, schema-complete snapshots. -/

theorem newRecs_ok_map {cn : Csv} {d : String} {ks : List String}
    (hnd : (keysOf cn).Nodup) (hname : "CompanyName" ∈ cn.cols)
    (hks : ∀ k ∈ ks, k ∈ keysOf cn) :
    newRecs cn d ks = .ok (ks.map (newRecOf cn d)) := by
  induction ks with
  | nil => rfl
  | cons k rest ih =>
      have h1 := loc_scalar hnd (hks k (List.mem_cons_self k rest)) hname
      have h2 := ih (fun x hx => hks x (List.mem_cons_of_mem _ hx))
      simp only [newRecs, h1, h2, List.map_cons]
      rfl

theorem goneRecs_ok_map {co : Csv} {d : String} {ks : List String}
    (hnd : (keysOf co).Nodup) (hname : "CompanyName" ∈ co.cols)
    (hks : ∀ k ∈ ks, k ∈ keysOf co) :
    goneRecs co d ks = .ok (ks.map (goneRecOf co d)) := by
  induction ks with
  | nil => rfl
  | cons k rest ih =>
      have h1 := loc_scalar hnd (hks k (List.mem_cons_self k rest)) hname
      have h2 := ih (fun x hx => hks x (List.mem_cons_of_mem _ hx))
      simp only [goneRecs, h1, h2, List.map_cons]
      rfl

theorem fieldRecsAux_ok {co cn : Csv} {d k : String} (cols : List String)
    (hndo : (keysOf co).Nodup) (hndn : (keysOf cn).Nodup)
    (hko : k ∈ keysOf co) (hkn : k ∈ keysOf cn)
    (hcols : ∀ col ∈ cols, col ∈ co.cols ∧ col ∈ cn.cols) :
    fieldRecsAux co cn d k cols =
      .ok ((cols.filter (fun col =>
          decide (specChanged (cellOf co k col) (cellOf cn k col)))).map
        (fun col => mkFieldRec k col (.scalar (cellOf co k col))
          (.scalar (cellOf cn k col)) d)) := by
  induction cols with
  | nil => rfl
  | cons col cols ih =>
      obtain ⟨h1, h2⟩ := hcols col (List.mem_cons_self col cols)
      have e1 := loc_scalar hndo hko h1
      have e2 := loc_scalar hndn hkn h2
      have e3 := emitTest_scalar (cellOf co k col) (cellOf cn k col)
      have e4 := ih (fun c hc => hcols c (List.mem_cons_of_mem _ hc))
      simp only [fieldRecsAux, e1, e2, e3, e4]
      by_cases hch : specChanged (cellOf co k col) (cellOf cn k col)
      · simp [hch, List.filter_cons]
      · simp [hch, List.filter_cons]

theorem commonRecs_ok {co cn : Csv} {d : String} {ks : List String}
    (hndo : (keysOf co).Nodup) (hndn : (keysOf cn).Nodup)
    (hcols : ∀ col ∈ columns_to_check, col ∈ co.cols ∧ col ∈ cn.cols)
    (hks : ∀ k ∈ ks, k ∈ keysOf co ∧ k ∈ keysOf cn) :
    commonRecs co cn d ks = .ok (ks.flatMap (chunkFor co cn d)) := by
  induction ks with
  | nil => rfl
  | cons k rest ih =>
      obtain ⟨hko, hkn⟩ := hks k (List.mem_cons_self k rest)
      have e1 := fieldRecsAux_ok (d := d) columns_to_check hndo hndn hko hkn hcols
      have e2 := ih (fun x hx => hks x (List.mem_cons_of_mem _ hx))
      simp only [commonRecs, e1, e2, List.flatMap_cons, chunkFor]

theorem find_changes_ok_char {co cn : Csv} {d : String}
    (ho : co.hasCIN = true) (hn : cn.hasCIN = true)
    (hndo : (keysOf co).Nodup) (hndn : (keysOf cn).Nodup)
    (hnameo : "CompanyName" ∈ co.cols) (hnamen : "CompanyName" ∈ cn.cols)
    (hcols : ∀ col ∈ columns_to_check, col ∈ co.cols ∧ col ∈ cn.cols) :
    find_changes (.ok co) (.ok cn) d =
      .ok ((new_cins co cn).map (newRecOf cn d)
        ++ (gone_cins co cn).map (goneRecOf co d)
        ++ (common_cins co cn).flatMap (chunkFor co cn d)) := by
  have e1 := @newRecs_ok_map cn d (new_cins co cn) hndn hnamen
    (fun k hk => (mem_new_cins.mp hk).1)
  have e2 := @goneRecs_ok_map co d (gone_cins co cn) hndo hnameo
    (fun k hk => (mem_gone_cins.mp hk).1)
  have e3 := @commonRecs_ok co cn d (common_cins co cn) hndo hndn hcols
    (fun k hk => mem_common_cins.mp hk)
  simp only [find_changes, ho, hn, Bool.and_self, if_true, e1, e2, e3]

/-! The shape of any successful run, with no assumptions on the inputs. -/

theorem newRecs_shape {cn : Csv} {d : String} {ks : List String}
    {rs : List ChangeRecord} (h : newRecs cn d ks = .ok rs) :
    rs.map (fun r => r.CIN) = ks ∧
      ∀ r ∈ rs, r.Change_Type = "New Incorporation" := by
  induction ks generalizing rs with
  | nil =>
      simp only [newRecs, Except.ok.injEq] at h
      subst h; simp
  | cons k rest ih =>
      simp only [newRecs] at h
      cases hl : loc cn k "CompanyName" with
      | error e => simp [hl] at h
      | ok nv =>
          simp only [hl] at h
          cases hr : newRecs cn d rest with
          | error e => simp [hr] at h
          | ok rs0 =>
              simp only [hr, Except.ok.injEq] at h
              subst h
              obtain ⟨ih1, ih2⟩ := ih hr
              refine ⟨by simp [ih1], fun r hmem => ?_⟩
              rcases List.mem_cons.mp hmem with hc | hc
              · subst hc; rfl
              · exact ih2 r hc

theorem goneRecs_shape {co : Csv} {d : String} {ks : List String}
    {rs : List ChangeRecord} (h : goneRecs co d ks = .ok rs) :
    rs.map (fun r => r.CIN) = ks ∧
      ∀ r ∈ rs, r.Change_Type = "Deregistered" := by
  induction ks generalizing rs with
  | nil =>
      simp only [goneRecs, Except.ok.injEq] at h
      subst h; simp
  | cons k rest ih =>
      simp only [goneRecs] at h
      cases hl : loc co k "CompanyName" with
      | error e => simp [hl] at h
      | ok ov =>
          simp only [hl] at h
          cases hr : goneRecs co d rest with
          | error e => simp [hr] at h
          | ok rs0 =>
              simp only [hr, Except.ok.injEq] at h
              subst h
              obtain ⟨ih1, ih2⟩ := ih hr
              refine ⟨by simp [ih1], fun r hmem => ?_⟩
              rcases List.mem_cons.mp hmem with hc | hc
              · subst hc; rfl
              · exact ih2 r hc

theorem fieldRecsAux_shape {co cn : Csv} {d k : String} {cols : List String}
    {rs : List ChangeRecord} (h : fieldRecsAux co cn d k cols = .ok rs) :
    ∀ r ∈ rs, r.Change_Type = "Field Update" := by
  induction cols generalizing rs with
  | nil =>
      simp only [fieldRecsAux, Except.ok.injEq] at h
      subst h; simp
  | cons col cols ih =>
      simp only [fieldRecsAux] at h
      cases h1 : loc co k col with
      | error e => simp [h1] at h
      | ok ov =>
        simp only [h1] at h
        cases h2 : loc cn k col with
        | error e => simp [h2] at h
        | ok nv =>
          simp only [h2] at h
          cases h3 : emitTest ov nv with
          | error e => simp [h3] at h
          | ok t =>
            simp only [h3] at h
            cases h4 : fieldRecsAux co cn d k cols with
            | error e => simp [h4] at h
            | ok rest =>
              simp only [h4, Except.ok.injEq] at h
              subst h
              intro r hmem
              rcases List.mem_append.mp hmem with hc | hc
              · cases t with
                | false => simp at hc
                | true =>
                    simp only [if_true, List.mem_singleton] at hc
                    subst hc; rfl
              · exact ih h4 r hc

theorem commonRecs_shape {co cn : Csv} {d : String} {ks : List String}
    {rs : List ChangeRecord} (h : commonRecs co cn d ks = .ok rs) :
    ∀ r ∈ rs, r.Change_Type = "Field Update" := by
  induction ks generalizing rs with
  | nil =>
      simp only [commonRecs, Except.ok.injEq] at h
      subst h; simp
  | cons k rest ih =>
      simp only [commonRecs] at h
      cases h1 : fieldRecsAux co cn d k columns_to_check with
      | error e => simp [h1] at h
      | ok here =>
          simp only [h1] at h
          cases h2 : commonRecs co cn d rest with
          | error e => simp [h2] at h
          | ok rs0 =>
              simp only [h2, Except.ok.injEq] at h
              subst h
              intro r hmem
              rcases List.mem_append.mp hmem with hc | hc
              · exact fieldRecsAux_shape h1 r hc
              · exact ih h2 r hc

theorem find_changes_ok_cases {co cn : Csv} {d : String}
    {l : List ChangeRecord} (h : find_changes (.ok co) (.ok cn) d = .ok l)
    (hCIN : (co.hasCIN && cn.hasCIN) = true) :
    ∃ r1 r2 r3, newRecs cn d (new_cins co cn) = .ok r1 ∧
      goneRecs co d (gone_cins co cn) = .ok r2 ∧
      commonRecs co cn d (common_cins co cn) = .ok r3 ∧
      l = r1 ++ r2 ++ r3 := by
  simp only [find_changes, hCIN, if_true] at h
  cases h1 : newRecs cn d (new_cins co cn) with
  | error e => simp [h1] at h
  | ok r1 =>
      simp only [h1] at h
      cases h2 : goneRecs co d (gone_cins co cn) with
      | error e => simp [h2] at h
      | ok r2 =>
          simp only [h2] at h
          cases h3 : commonRecs co cn d (common_cins co cn) with
          | error e => simp [h3] at h
          | ok r3 =>
              simp only [h3, Except.ok.injEq] at h
              exact ⟨r1, r2, r3, rfl, rfl, rfl, h.symm⟩

/-! Counting helpers. -/

theorem flatMap_nil {α β : Type} (g : α → List β) {ks : List α}
    (h : ∀ x ∈ ks, g x = []) : ks.flatMap g = [] := by
  induction ks with
  | nil => rfl
  | cons x rest ih =>
      rw [List.flatMap_cons, h x (List.mem_cons_self x rest),
        ih (fun y hy => h y (List.mem_cons_of_mem x hy)), List.nil_append]

theorem countP_flatMap_zero {α β : Type} (p : β → Bool) (g : α → List β)
    {ks : List α} (hz : ∀ x ∈ ks, (g x).countP p = 0) :
    (ks.flatMap g).countP p = 0 := by
  induction ks with
  | nil => rfl
  | cons x rest ih =>
      rw [List.flatMap_cons, List.countP_append,
        hz x (List.mem_cons_self x rest),
        ih (fun y hy => hz y (List.mem_cons_of_mem x hy))]

theorem countP_flatMap_single {α β : Type} (p : β → Bool) (g : α → List β)
    {ks : List α} {k : α} (hnd : ks.Nodup) (hk : k ∈ ks)
    (hz : ∀ x ∈ ks, x ≠ k → (g x).countP p = 0) :
    (ks.flatMap g).countP p = (g k).countP p := by
  induction ks with
  | nil => cases hk
  | cons x rest ih =>
      rw [List.nodup_cons] at hnd
      rw [List.flatMap_cons, List.countP_append]
      rcases List.mem_cons.mp hk with h | h
      · have hrest : (rest.flatMap g).countP p = 0 :=
          countP_flatMap_zero p g (fun y hy =>
            hz y (List.mem_cons_of_mem x hy)
              (fun hyk => hnd.1 (h ▸ hyk ▸ hy)))
        rw [hrest, h, Nat.add_zero]
      · have hxk : x ≠ k := fun hxe => hnd.1 (hxe ▸ h)
        rw [hz x (List.mem_cons_self x rest) hxk,
          ih hnd.2 h
            (fun y hy hyk => hz y (List.mem_cons_of_mem x hy) hyk),
          Nat.zero_add]

theorem countP_filter_single {f : String} {l : List String}
    (q : String → Bool) (hnd : l.Nodup) (hf : f ∈ l) :
    (l.filter q).countP (fun x => decide (x = f)) =
      if q f then 1 else 0 := by
  induction l with
  | nil => cases hf
  | cons x rest ih =>
      rw [List.nodup_cons] at hnd
      have hz : (rest.filter q).countP (fun x => decide (x = f)) = 0 ∨ f ∈ rest := by
        rcases List.mem_cons.mp hf with h | h
        · refine Or.inl (List.countP_eq_zero.mpr (fun y hy => ?_))
          have hy2 := (List.mem_filter.mp hy).1
          simp only [decide_eq_true_eq]
          intro hyf
          exact hnd.1 (h ▸ hyf ▸ hy2)
        · exact Or.inr h
      rcases List.mem_cons.mp hf with h | h
      · subst h
        rcases hz with hz | hz
        · by_cases hq : q f
          · rw [List.filter_cons_of_pos hq, List.countP_cons, hz, if_pos hq]
            simp
          · rw [List.filter_cons_of_neg hq, hz, if_neg hq]
        · exact absurd hz hnd.1
      · have hxf : ¬ x = f := fun hxe => hnd.1 (hxe ▸ h)
        by_cases hq : q x
        · rw [List.filter_cons_of_pos hq, List.countP_cons, ih hnd.2 h]
          simp [hxf]
        · rw [List.filter_cons_of_neg hq, ih hnd.2 h]

/-! The claims. -/

/-- C2: the spec claims a duplicated key makes the run fail with
`DuplicateKeyError` and return no change log.  The code has no duplicate
check: with K1 twice in the old snapshot and absent from the new one,
`find_changes` succeeds and returns a non-empty log (the duplicate is
collapsed into one Deregistered record). -/
theorem duplicate_key_cex :
    ¬ (keysOf dupOld).Nodup ∧
    find_changes (.ok dupOld) (.ok dupNewAbsent) "Day 2" = .ok dupLog ∧
    dupLog ≠ [] :=
  ⟨by decide, by rfl, by decide⟩

/-- C2 amended: the code never detects duplicate keys.  A key duplicated in
the old snapshot only is collapsed by `Index.difference` into a single
Deregistered record whose old value is a Series; a duplicated key common to
both snapshots makes the comparison raise `ValueError` (ambiguous truth
value of a Series), not a `DuplicateKeyError`. -/
theorem duplicate_key_behavior :
    find_changes (.ok dupOld) (.ok dupNewAbsent) "Day 2" = .ok dupLog ∧
    find_changes (.ok dupOld) (.ok dupNewCommon) "Day 2" =
      .error .valueError :=
  ⟨by rfl, by rfl⟩

/-- C6: the spec claims a missing `CompanyName` (or watched) column fails
with `SchemaError` before diffing.  The code has no schema check: with the
`CompanyName` column absent from both snapshots and equal key sets, the run
succeeds and returns an ordinary change log. -/
theorem schema_error_cex :
    "CompanyName" ∉ noNameOld.cols ∧ "CompanyName" ∉ noNameNewSame.cols ∧
    find_changes (.ok noNameOld) (.ok noNameNewSame) "Day 2" =
      .ok [{ CIN := "K1", Change_Type := "Field Update",
             Field_Changed := "CompanyStatus",
             Old_Value := .scalar (.str "Active"),
             New_Value := .scalar (.str "Strike Off"), Date := "Day 2" }] :=
  ⟨by decide, by decide, by rfl⟩

/-- C6 amended: there is no schema validation.  A missing `CompanyName`
column is only hit when a membership record is actually built: with equal
key sets the run succeeds despite the missing column; with an added key the
run raises an uncaught `KeyError` mid-diff rather than a `SchemaError`
caught before diffing. -/
theorem missing_column_behavior :
    find_changes (.ok noNameOld) (.ok noNameNewSame) "Day 2" =
      .ok [{ CIN := "K1", Change_Type := "Field Update",
             Field_Changed := "CompanyStatus",
             Old_Value := .scalar (.str "Active"),
             New_Value := .scalar (.str "Strike Off"), Date := "Day 2" }] ∧
    find_changes (.ok noNameOld) (.ok noNameNewAdded) "Day 2" =
      .error (.keyError "CompanyName") :=
  ⟨by rfl, by rfl⟩

/-- C7: the spec claims the serialized field names are
`Key, Change_Type, Field_Changed, Old_Value, New_Value, Date`.  The records
produced by a run serialize with the literal key `CIN`, not `Key`. -/
theorem serialized_keys_cex :
    find_changes (.ok oldSnapA) (.ok newSnapA) "Day 2" = .ok scenarioALog ∧
    scenarioALog.map (fun r => (serializeRecord r).map Prod.fst) =
      [codeKeys, codeKeys, codeKeys] ∧
    codeKeys ≠ claimedKeys :=
  ⟨by rfl, by rfl, by decide⟩

/-- C7 amended: every change record serializes with exactly the literal
field names `CIN, Change_Type, Field_Changed, Old_Value, New_Value, Date`,
in that order. -/
theorem serialized_record_keys (r : ChangeRecord) :
    (serializeRecord r).map Prod.fst = codeKeys :=
  rfl

/-- C7 amended witness: the serialized keys of a concrete record. -/
theorem serialized_record_keys_witness :
    (serializeRecord
      { CIN := "K9", Change_Type := "Field Update",
        Field_Changed := "CompanyStatus", Old_Value := .scalar (.str "A"),
        New_Value := .scalar (.str "B"), Date := "Day 2" }).map Prod.fst =
      codeKeys :=
  serialized_record_keys
    { CIN := "K9", Change_Type := "Field Update",
      Field_Changed := "CompanyStatus", Old_Value := .scalar (.str "A"),
      New_Value := .scalar (.str "B"), Date := "Day 2" }

/-- C8: reconciling a snapshot with unique keys (and the watched columns
present) against itself yields an empty change log. -/
theorem self_reconcile_empty (c : Csv) (d : String)
    (hc : c.hasCIN = true) (hnd : (keysOf c).Nodup)
    (hcols : ∀ col ∈ columns_to_check, col ∈ c.cols) :
    find_changes (.ok c) (.ok c) d = .ok [] := by
  have h1 : new_cins c c = [] := by
    have he : (firstUnique (keysOf c)).filter
        (fun k => decide (k ∉ keysOf c)) = [] :=
      List.filter_eq_nil_iff.mpr (fun k hk => by
        simp [mem_firstUnique.mp hk])
    rw [new_cins, he]; rfl
  have h2 : gone_cins c c = [] := by
    have he : (firstUnique (keysOf c)).filter
        (fun k => decide (k ∉ keysOf c)) = [] :=
      List.filter_eq_nil_iff.mpr (fun k hk => by
        simp [mem_firstUnique.mp hk])
    rw [gone_cins, he]; rfl
  have h3 := @commonRecs_ok c c d (common_cins c c) hnd hnd
    (fun col hcol => ⟨hcols col hcol, hcols col hcol⟩)
    (fun k hk => mem_common_cins.mp hk)
  have h4 : (common_cins c c).flatMap (chunkFor c c d) = [] := by
    apply flatMap_nil
    intro k _
    have he : columns_to_check.filter (fun col =>
        decide (specChanged (cellOf c k col) (cellOf c k col))) = [] :=
      List.filter_eq_nil_iff.mpr (fun col _ => by
        simp [specChanged_irrefl])
    rw [chunkFor, he]; rfl
  rw [h4] at h3
  simp only [find_changes, hc, Bool.and_self, if_true, h1, h2, h3, newRecs,
    goneRecs, List.append_nil]

/-- C8 witness: the self-diff of Scenario A's old snapshot is empty. -/
theorem self_reconcile_empty_witness :
    find_changes (.ok oldSnapA) (.ok oldSnapA) "Day 2" = .ok [] :=
  self_reconcile_empty oldSnapA "Day 2" rfl (by decide) (by decide)

/-- C9: the summary step counts the records of each change type in the log
(a pure reduction), and on Scenario A's log it yields one New
Incorporation, one Deregistered and one Field Update. -/
theorem summary_counts :
    (∀ (log : List ChangeRecord) (t : String),
      countType log t = (log.map (fun r => r.Change_Type)).count t) ∧
    find_changes (.ok oldSnapA) (.ok newSnapA) "Day 2" = .ok scenarioALog ∧
    countType scenarioALog "New Incorporation" = 1 ∧
    countType scenarioALog "Deregistered" = 1 ∧
    countType scenarioALog "Field Update" = 1 := by
  refine ⟨?_, by rfl, by rfl, by rfl, by rfl⟩
  intro log t
  rw [countType, ← List.countP_eq_length_filter, List.count_eq_countP,
    List.countP_map]
  apply List.countP_congr
  intro r _
  simp

/-- C9 witness: the counting identity instantiated on Scenario A's log. -/
theorem summary_counts_witness :
    countType scenarioALog "Deregistered" =
      (scenarioALog.map (fun r => r.Change_Type)).count "Deregistered" :=
  summary_counts.1 scenarioALog "Deregistered"

/-- C10: a missing snapshot file, or a snapshot without the `CIN` column,
is caught inside `find_changes`, which returns the empty list to its caller
exactly as a successful run with no changes would. -/
theorem caught_errors_empty (o n : ReadResult) (co cn : Csv) (d : String) :
    find_changes .fileNotFound n d = .ok [] ∧
    find_changes o .fileNotFound d = .ok [] ∧
    (co.hasCIN = false → find_changes (.ok co) (.ok cn) d = .ok []) ∧
    (cn.hasCIN = false → find_changes (.ok co) (.ok cn) d = .ok []) := by
  refine ⟨?_, ?_, ?_, ?_⟩
  · cases n <;> rfl
  · cases o <;> rfl
  · intro h; simp [find_changes, h]
  · intro h; simp [find_changes, h]

/-- C1: on indexed snapshots (unique keys, full schema), for a key present
in both snapshots and a watched field, the log carries exactly one Field
Update record for that key and field when exactly one side is null or both
are present and unequal, and none otherwise. -/
theorem fieldDiff_nullAware (co cn : Csv) (d k f : String)
    (l : List ChangeRecord)
    (ho : co.hasCIN = true) (hn : cn.hasCIN = true)
    (hndo : (keysOf co).Nodup) (hndn : (keysOf cn).Nodup)
    (hnameo : "CompanyName" ∈ co.cols) (hnamen : "CompanyName" ∈ cn.cols)
    (hcols : ∀ col ∈ columns_to_check, col ∈ co.cols ∧ col ∈ cn.cols)
    (hko : k ∈ keysOf co) (hkn : k ∈ keysOf cn) (hf : f ∈ columns_to_check)
    (hrun : find_changes (.ok co) (.ok cn) d = .ok l) :
    l.countP (isFieldRecFor k f) =
      if specChanged (cellOf co k f) (cellOf cn k f) then 1 else 0 := by
  rw [find_changes_ok_char ho hn hndo hndn hnameo hnamen hcols,
    Except.ok.injEq] at hrun
  subst hrun
  rw [List.countP_append, List.countP_append]
  have z1 : ((new_cins co cn).map (newRecOf cn d)).countP
      (isFieldRecFor k f) = 0 := by
    apply List.countP_eq_zero.mpr
    intro r hr
    obtain ⟨k2, _, rfl⟩ := List.mem_map.mp hr
    simp [isFieldRecFor, newRecOf]
  have z2 : ((gone_cins co cn).map (goneRecOf co d)).countP
      (isFieldRecFor k f) = 0 := by
    apply List.countP_eq_zero.mpr
    intro r hr
    obtain ⟨k2, _, rfl⟩ := List.mem_map.mp hr
    simp [isFieldRecFor, goneRecOf]
  have hcommon : k ∈ common_cins co cn := mem_common_cins.mpr ⟨hko, hkn⟩
  have z3 : ((common_cins co cn).flatMap (chunkFor co cn d)).countP
      (isFieldRecFor k f) =
      (chunkFor co cn d k).countP (isFieldRecFor k f) := by
    apply countP_flatMap_single _ _ (nodup_common_cins co cn) hcommon
    intro x _ hxk
    apply List.countP_eq_zero.mpr
    intro r hr
    obtain ⟨col, _, rfl⟩ := List.mem_map.mp hr
    simp [isFieldRecFor, mkFieldRec, hxk]
  have z4 : (chunkFor co cn d k).countP (isFieldRecFor k f) =
      if specChanged (cellOf co k f) (cellOf cn k f) then 1 else 0 := by
    rw [chunkFor, List.countP_map]
    have hcg : List.countP
        ((isFieldRecFor k f) ∘ (fun col => mkFieldRec k col
          (.scalar (cellOf co k col)) (.scalar (cellOf cn k col)) d))
        (columns_to_check.filter (fun col =>
          decide (specChanged (cellOf co k col) (cellOf cn k col)))) =
        List.countP (fun x => decide (x = f))
        (columns_to_check.filter (fun col =>
          decide (specChanged (cellOf co k col) (cellOf cn k col)))) := by
      apply List.countP_congr
      intro col _
      simp [isFieldRecFor, mkFieldRec, Function.comp]
    rw [hcg, countP_filter_single _ (by decide) hf]
    by_cases hch : specChanged (cellOf co k f) (cellOf cn k f)
    · simp [hch]
    · simp [hch]
  simp only [z1, z2, z3, z4, Nat.zero_add]

/-- C1 witness: in Scenario A, K2's CompanyStatus changed from Active to
Strike Off, so its log carries exactly one record for (K2, CompanyStatus). -/
theorem fieldDiff_nullAware_witness :
    scenarioALog.countP (isFieldRecFor "K2" "CompanyStatus") =
      if specChanged (cellOf oldSnapA "K2" "CompanyStatus")
        (cellOf newSnapA "K2" "CompanyStatus") then 1 else 0 :=
  fieldDiff_nullAware oldSnapA newSnapA "Day 2" "K2" "CompanyStatus"
    scenarioALog rfl rfl (by decide) (by decide) (by decide) (by decide)
    (by decide) (by decide) (by decide) (by decide) (by rfl)

/-- C3: any successful run's log is three contiguous sections (all New
Incorporation records, then all Deregistered records, then all Field Update
records), and on Scenario A the log is exactly NewIncorporation(K3),
Deregistered(K1), FieldUpdate(K2, CompanyStatus, Active to Strike Off). -/
theorem changeLog_three_sections :
    (∀ (o n : ReadResult) (d : String) (l : List ChangeRecord),
      find_changes o n d = .ok l →
      ∃ a b c, l = a ++ b ++ c ∧
        (∀ r ∈ a, r.Change_Type = "New Incorporation") ∧
        (∀ r ∈ b, r.Change_Type = "Deregistered") ∧
        (∀ r ∈ c, r.Change_Type = "Field Update")) ∧
    find_changes (.ok oldSnapA) (.ok newSnapA) "Day 2" = .ok scenarioALog := by
  refine ⟨?_, by rfl⟩
  intro o n d l h
  have hnil : l = [] →
      ∃ a b c, l = a ++ b ++ c ∧
        (∀ r ∈ a, r.Change_Type = "New Incorporation") ∧
        (∀ r ∈ b, r.Change_Type = "Deregistered") ∧
        (∀ r ∈ c, r.Change_Type = "Field Update") := by
    rintro rfl
    exact ⟨[], [], [], rfl, by simp, by simp, by simp⟩
  cases o with
  | fileNotFound =>
      apply hnil
      cases n with
      | fileNotFound =>
          simp only [find_changes, Except.ok.injEq] at h
          exact h.symm
      | ok c2 =>
          simp only [find_changes, Except.ok.injEq] at h
          exact h.symm
  | ok co =>
      cases n with
      | fileNotFound =>
          apply hnil
          simp only [find_changes, Except.ok.injEq] at h
          exact h.symm
      | ok cn =>
          by_cases hCIN : (co.hasCIN && cn.hasCIN) = true
          · obtain ⟨r1, r2, r3, h1, h2, h3, rfl⟩ :=
              find_changes_ok_cases h hCIN
            exact ⟨r1, r2, r3, rfl, (newRecs_shape h1).2,
              (goneRecs_shape h2).2, commonRecs_shape h3⟩
          · apply hnil
            rw [Bool.not_eq_true] at hCIN
            simp only [find_changes, hCIN, Bool.false_eq_true, if_false,
              Except.ok.injEq] at h
            exact h.symm

/-- C3 witness: Scenario A's log decomposes into the three sections. -/
theorem changeLog_three_sections_witness :
    ∃ a b c, scenarioALog = a ++ b ++ c ∧
      (∀ r ∈ a, r.Change_Type = "New Incorporation") ∧
      (∀ r ∈ b, r.Change_Type = "Deregistered") ∧
      (∀ r ∈ c, r.Change_Type = "Field Update") :=
  changeLog_three_sections.1 (.ok oldSnapA) (.ok newSnapA) "Day 2"
    scenarioALog (by rfl)

/-- C4 counterexample: the claim says Field Update records are grouped by
key in ascending order.  With an old snapshot indexed K2, K1 (unique keys
on both sides), the field section comes out K2 then K1 — the old index
order, not ascending. -/
theorem fieldUpdate_order_cex :
    (keysOf nonMonoOld).Nodup ∧ (keysOf nonMonoNew).Nodup ∧
    find_changes (.ok nonMonoOld) (.ok nonMonoNew) "Day 2" =
      .ok nonMonoLog ∧
    (∀ r ∈ nonMonoLog, r.Change_Type = "Field Update") ∧
    nonMonoLog.map (fun r => r.CIN) = ["K2", "K1"] ∧
    ¬ ("K2" : String) ≤ "K1" :=
  ⟨by decide, by decide, by rfl, by decide, by rfl, by
    rw [String.le_iff_toList_le]
    decide⟩

/-- C4 amended: added and removed keys are each emitted in ascending
lexical order; the Field Update section is grouped by key with the fields
of each key in watch-list order, but the keys follow their first-appearance
order in the old snapshot's index (`common_cins`), not ascending order. -/
theorem sections_ordering (co cn : Csv) (d : String)
    (l : List ChangeRecord)
    (ho : co.hasCIN = true) (hn : cn.hasCIN = true)
    (hndo : (keysOf co).Nodup) (hndn : (keysOf cn).Nodup)
    (hnameo : "CompanyName" ∈ co.cols) (hnamen : "CompanyName" ∈ cn.cols)
    (hcols : ∀ col ∈ columns_to_check, col ∈ co.cols ∧ col ∈ cn.cols)
    (hrun : find_changes (.ok co) (.ok cn) d = .ok l) :
    ∃ a b c, l = a ++ b ++ c ∧
      a.map (fun r => r.CIN) = new_cins co cn ∧
      (a.map (fun r => r.CIN)).Sorted (· ≤ ·) ∧
      b.map (fun r => r.CIN) = gone_cins co cn ∧
      (b.map (fun r => r.CIN)).Sorted (· ≤ ·) ∧
      c.map (fun r => (r.CIN, r.Field_Changed)) =
        (common_cins co cn).flatMap (fun k =>
          (columns_to_check.filter (fun f2 =>
            decide (specChanged (cellOf co k f2) (cellOf cn k f2)))).map
            (fun f2 => (k, f2))) := by
  rw [find_changes_ok_char ho hn hndo hndn hnameo hnamen hcols,
    Except.ok.injEq] at hrun
  subst hrun
  have ha : ((new_cins co cn).map (newRecOf cn d)).map (fun r => r.CIN) =
      new_cins co cn := by
    rw [List.map_map]
    exact List.map_id'' (fun x => rfl) (new_cins co cn)
  have hb : ((gone_cins co cn).map (goneRecOf co d)).map (fun r => r.CIN) =
      gone_cins co cn := by
    rw [List.map_map]
    exact List.map_id'' (fun x => rfl) (gone_cins co cn)
  refine ⟨_, _, _, rfl, ha, ?_, hb, ?_, ?_⟩
  · rw [ha]; exact sorted_new_cins co cn
  · rw [hb]; exact sorted_gone_cins co cn
  · rw [List.map_flatMap]
    exact congrArg (List.flatMap (common_cins co cn))
      (funext (fun k => by rw [chunkFor, List.map_map]; rfl))

/-- C4 witness: Scenario A's sections, with the membership sections in
ascending key order and the field section following `common_cins`. -/
theorem sections_ordering_witness :
    ∃ a b c, scenarioALog = a ++ b ++ c ∧
      a.map (fun r => r.CIN) = new_cins oldSnapA newSnapA ∧
      (a.map (fun r => r.CIN)).Sorted (· ≤ ·) ∧
      b.map (fun r => r.CIN) = gone_cins oldSnapA newSnapA ∧
      (b.map (fun r => r.CIN)).Sorted (· ≤ ·) ∧
      c.map (fun r => (r.CIN, r.Field_Changed)) =
        (common_cins oldSnapA newSnapA).flatMap (fun k =>
          (columns_to_check.filter (fun f2 =>
            decide (specChanged (cellOf oldSnapA k f2)
              (cellOf newSnapA k f2)))).map (fun f2 => (k, f2))) :=
  sections_ordering oldSnapA newSnapA "Day 2" scenarioALog rfl rfl
    (by decide) (by decide) (by decide) (by decide) (by decide) (by rfl)

/-- C5: every key of either snapshot falls into exactly one of the added,
removed and common classes (so added and removed are disjoint), and every
common key with at least one watched field changed under the null-aware
comparison contributes at least one Field Update record to the log. -/
theorem key_classification (co cn : Csv) (d : String)
    (l : List ChangeRecord)
    (ho : co.hasCIN = true) (hn : cn.hasCIN = true)
    (hndo : (keysOf co).Nodup) (hndn : (keysOf cn).Nodup)
    (hnameo : "CompanyName" ∈ co.cols) (hnamen : "CompanyName" ∈ cn.cols)
    (hcols : ∀ col ∈ columns_to_check, col ∈ co.cols ∧ col ∈ cn.cols)
    (hrun : find_changes (.ok co) (.ok cn) d = .ok l) :
    (∀ k, (k ∈ keysOf co ∨ k ∈ keysOf cn) ↔
      (k ∈ new_cins co cn ∨ k ∈ gone_cins co cn ∨
        k ∈ common_cins co cn)) ∧
    (∀ k, ¬(k ∈ new_cins co cn ∧ k ∈ gone_cins co cn)) ∧
    (∀ k, ¬(k ∈ new_cins co cn ∧ k ∈ common_cins co cn)) ∧
    (∀ k, ¬(k ∈ gone_cins co cn ∧ k ∈ common_cins co cn)) ∧
    (∀ k, k ∈ keysOf co → k ∈ keysOf cn →
      (∃ f ∈ columns_to_check,
        specChanged (cellOf co k f) (cellOf cn k f)) →
      ∃ r ∈ l, r.CIN = k ∧ r.Change_Type = "Field Update") := by
  rw [find_changes_ok_char ho hn hndo hndn hnameo hnamen hcols,
    Except.ok.injEq] at hrun
  subst hrun
  refine ⟨?_, ?_, ?_, ?_, ?_⟩
  · intro k
    simp only [mem_new_cins, mem_gone_cins, mem_common_cins]
    tauto
  · intro k
    simp only [mem_new_cins, mem_gone_cins]
    tauto
  · intro k
    simp only [mem_new_cins, mem_common_cins]
    tauto
  · intro k
    simp only [mem_gone_cins, mem_common_cins]
    tauto
  · intro k hko hkn hex
    obtain ⟨f, hf, hch⟩ := hex
    refine ⟨mkFieldRec k f (.scalar (cellOf co k f))
      (.scalar (cellOf cn k f)) d, ?_, rfl, rfl⟩
    apply List.mem_append.mpr
    refine Or.inr (List.mem_flatMap.mpr ⟨k, mem_common_cins.mpr ⟨hko, hkn⟩, ?_⟩)
    apply List.mem_map.mpr
    exact ⟨f, List.mem_filter.mpr ⟨hf, by simp [hch]⟩, rfl⟩

/-- C5 witness: the classification on Scenario A, where K2's status change
yields a Field Update record. -/
theorem key_classification_witness :
    (∀ k, (k ∈ keysOf oldSnapA ∨ k ∈ keysOf newSnapA) ↔
      (k ∈ new_cins oldSnapA newSnapA ∨ k ∈ gone_cins oldSnapA newSnapA ∨
        k ∈ common_cins oldSnapA newSnapA)) ∧
    (∀ k, ¬(k ∈ new_cins oldSnapA newSnapA ∧
      k ∈ gone_cins oldSnapA newSnapA)) ∧
    (∀ k, ¬(k ∈ new_cins oldSnapA newSnapA ∧
      k ∈ common_cins oldSnapA newSnapA)) ∧
    (∀ k, ¬(k ∈ gone_cins oldSnapA newSnapA ∧
      k ∈ common_cins oldSnapA newSnapA)) ∧
    (∀ k, k ∈ keysOf oldSnapA → k ∈ keysOf newSnapA →
      (∃ f ∈ columns_to_check,
        specChanged (cellOf oldSnapA k f) (cellOf newSnapA k f)) →
      ∃ r ∈ scenarioALog, r.CIN = k ∧ r.Change_Type = "Field Update") :=
  key_classification oldSnapA newSnapA "Day 2" scenarioALog rfl rfl
    (by decide) (by decide) (by decide) (by decide) (by decide) (by rfl)

/-- C10 witness: a missing file, and a snapshot without a `CIN` column,
both yield the empty list. -/
theorem caught_errors_empty_witness :
    find_changes .fileNotFound (.ok oldSnapA) "Day 2" = .ok [] ∧
    noCINSnap.hasCIN = false ∧
    find_changes (.ok noCINSnap) (.ok oldSnapA) "Day 2" = .ok [] :=
  ⟨(caught_errors_empty .fileNotFound (.ok oldSnapA) noCINSnap oldSnapA
      "Day 2").1, rfl,
    (caught_errors_empty .fileNotFound (.ok oldSnapA) noCINSnap oldSnapA
      "Day 2").2.2.1 rfl⟩

end MCA
